import Mathlib

/-!
Verification development for the vscode heatmap extension
(src/src/extension.ts and src/package.json).

The extension annotates editor lines with a heat signal derived from git
history.  This file gives a shallow embedding of its core logic:

* the color interpolation used to build the palette (`mixColor`,
  `buildPalette`, `buildDecorations`);
* VCS detection by walking parent directories (`detectVcsWalk`,
  `detectVcsType`);
* the relative-mode age-rank extractor built on `git blame -p` output
  (`parseHeader`, `parseBlameLine`, `hashCacheOf`, `uniqueTimestamps`,
  `timestampToRank`, `rawLineTimestamps`, `getGitLineInfoCore`,
  `getGitLineInfo`);
* the absolute-mode modification-count extractor (`historyEntryCount`,
  `getGitModificationCounts`);
* the two renderers (`updateHeatmapForRelativeMode`,
  `updateHeatmapForAbsoluteMode`), modelled as the ordered sequence of
  setDecorations calls they issue, plus a flag recording whether a
  user-facing error message was shown;
* the mode dispatch of `updateVisibleHeatmaps` and the mode enumeration
  declared in package.json.

External effects (the vscode API, subprocess output) enter the model as
explicit inputs: the blame output as a list of its text lines, the per-line
history command results as a list of `Option String` (`none` = the command
failed for that line), editor visibility and the enabled set as booleans,
and the filesystem as boolean marker predicates on directory paths.
-/

/-! ### Colors: the npm color library mix, as used by buildDecorations -/

/-- Models a color value of the npm color library: red, green, blue and
alpha channels, kept as exact rationals (the library computes with JS
numbers and only rounds when serialising, which the claims never need). -/
@[ext] structure Rgba where
  r : ℚ
  g : ℚ
  b : ℚ
  alpha : ℚ
deriving DecidableEq, Repr

/-- Models `self.mix(mixin, p)` of the npm color library (color 4.2.3,
`mix(mixinColor, weight)`): the SASS mix algorithm, where `self` is the
receiver (`color2` in the library source) and `mixin` the argument
(`color1`).  The guard on `w * a = -1` is the division-by-zero guard of
the library. -/
def mixColor (self mixin : Rgba) (p : ℚ) : Rgba :=
  let w : ℚ := 2 * p - 1
  let a : ℚ := mixin.alpha - self.alpha
  let w1 : ℚ := ((if w * a = -1 then w else (w + a) / (1 + w * a)) + 1) / 2
  let w2 : ℚ := 1 - w1
  { r := w1 * mixin.r + w2 * self.r
    g := w1 * mixin.g + w2 * self.g
    b := w1 * mixin.b + w2 * self.b
    alpha := mixin.alpha * p + self.alpha * (1 - p) }

/-- Models the palette-building loop of `buildDecorations`
(extension.ts lines 535-548): `heatPerLevel` is `1/(levels-1)` for more
than one level and `0` otherwise, and entry `i` is
`coolColor.mix(heatColor, heatPerLevel * i)`. -/
def buildPalette (levels : Nat) (hot cool : Rgba) : List Rgba :=
  let heatPerLevel : ℚ := if 1 < levels then 1 / ((levels : ℚ) - 1) else 0
  (List.range levels).map (fun (i : Nat) => mixColor cool hot (heatPerLevel * (i : ℚ)))

/-- Models `config.get<number>("heatLevels") || DEFAULT_HEAT_LEVELS`
(extension.ts line 509): the JS or-expression replaces a falsy configured
value, in particular `0`, by the default `10`.  An unset key also yields
`10` (the package.json default supplied by the host). -/
def effectiveHeatLevels (configured : Int) : Int :=
  if configured = 0 then 10 else configured

/-- Models the extension state that `buildDecorations` touches: the
`heatStyles` palette (we record the background color of each decoration
type) and the decorations currently applied in visible editors. -/
structure BuildState where
  heatStyles : List Rgba
  editorPaint : List Nat
deriving DecidableEq, Repr

/-- Models `buildDecorations` (extension.ts lines 507-549) as a state
transition.  Input is the raw configured heat-level count and the parsed
hot and cool colors; output is the new state together with a flag telling
whether the configuration-error message was shown.  On `heatLevels < 1`
the function returns before clearing editors and before touching
`heatStyles`; otherwise it clears every visible editor and rebuilds the
palette from scratch. -/
def buildDecorations (configHeatLevels : Int) (hot cool : Rgba)
    (st : BuildState) : BuildState × Bool :=
  let heatLevels := effectiveHeatLevels configHeatLevels
  if heatLevels < 1 then (st, true)
  else ({ heatStyles := buildPalette heatLevels.toNat hot cool, editorPaint := [] }, false)

/-- Models DEFAULT_HEAT_COLOUR = color.rgb(200, 0, 0) (opaque). -/
def defaultHeatColour : Rgba := { r := 200, g := 0, b := 0, alpha := 1 }

/-- Models `heatColor.alpha(0)`, the default cool color (extension.ts
line 516): the heat color made fully transparent. -/
def coolDefaultOf (heat : Rgba) : Rgba := { heat with alpha := 0 }

/-! ### VCS detection -/

/-- The two version control systems `detectVcsType` can report. -/
inductive VcsType where
  | git
  | perforce
deriving DecidableEq, Repr

/-- Models the ambient filesystem and environment probed by
`detectVcsType`: whether a directory (given as its absolute component
list, `[]` being the filesystem root) contains a `.git` or `.p4config`
marker, and whether the `P4CONFIG` environment variable is set. -/
structure VcsFileSystem where
  hasGitMarker : List String → Bool
  hasP4Marker : List String → Bool
  p4configEnvSet : Bool

/-- Models the while loop of `detectVcsType` (extension.ts lines 55-69):
starting from a directory, while the current directory is not the
filesystem root, report git on a `.git` marker, perforce on a `.p4config`
marker, otherwise ascend by one component; once the root is reached the
loop exits without probing the root itself, and the `P4CONFIG`
environment variable decides between perforce and nothing.  Directories
are absolute POSIX paths as component lists, so dirname is `dropLast` and
the root is `[]`. -/
def detectVcsWalk (fs : VcsFileSystem) : List String → Option VcsType
  | [] => if fs.p4configEnvSet then some VcsType.perforce else none
  | d :: ds =>
    if fs.hasGitMarker (d :: ds) then some VcsType.git
    else if fs.hasP4Marker (d :: ds) then some VcsType.perforce
    else detectVcsWalk fs (d :: ds).dropLast
termination_by l => l.length
decreasing_by
  simp only [List.length_dropLast, List.length_cons]
  omega

/-- Models `detectVcsType(filePath)` (extension.ts lines 51-72): start the
walk at `path.dirname(filePath)`, the containing directory of the file. -/
def detectVcsType (fs : VcsFileSystem) (filePath : List String) : Option VcsType :=
  detectVcsWalk fs filePath.dropLast

/-! ### Relative mode extractor: git blame parsing and age ranks -/

/-- Matches the lowercase hex character class `[0-9a-f]` of the blame
header regular expressions. -/
def isLowerHexDigit (c : Char) : Bool :=
  c.isDigit || ('a' ≤ c && c ≤ 'f')

/-- Converts a digit run to the number `parseInt` yields on it. -/
def digitsToNat (ds : List Char) : Nat :=
  ds.foldl (fun n c => 10 * n + (c.toNat - Char.toNat '0')) 0

/-- Models `parseInt` on a token: an optional minus sign followed by a
longest digit run; anything after the digits is ignored, and a token with
no leading digits yields no number (JS NaN). -/
def jsParseInt (cs : List Char) : Option Int :=
  match cs with
  | '-' :: rest =>
    let ds := rest.takeWhile Char.isDigit
    if ds = [] then none else some (-(digitsToNat ds : Int))
  | _ =>
    let ds := cs.takeWhile Char.isDigit
    if ds = [] then none else some ((digitsToNat ds : Int))

/-- Models the header regular expression
`^([0-9a-f]{40}) \d+ (\d+)(?: (\d+))?` of `getGitLineInfo` (the pass-2
variant omits the optional third group, which does not change
acceptance): forty lowercase hex characters, a space, a digit run, a
space, and a second digit run whose `parseInt` value is the final line
number; trailing text is ignored.  Returns the hash and the final line
number. -/
def parseHeader (s : String) : Option (String × Nat) :=
  let cs := s.toList
  let hash := cs.take 40
  let rest := cs.drop 40
  if (hash.length == 40) && hash.all isLowerHexDigit then
    match rest with
    | ' ' :: r1 =>
      let d1 := r1.takeWhile Char.isDigit
      let r2 := r1.dropWhile Char.isDigit
      if d1 = [] then none
      else
        match r2 with
        | ' ' :: r3 =>
          let d2 := r3.takeWhile Char.isDigit
          if d2 = [] then none
          else some (hash.asString, digitsToNat d2)
        | _ => none
    | _ => none
  else none

/-- One line of `git blame -p` output, as the two regular-expression
tests of `getGitLineInfo` classify it: a commit header carrying a hash
and a final line number, a `committer-time` line carrying a timestamp, or
anything else. -/
inductive BlameLine where
  | header (hash : String) (finalLine : Nat)
  | committerTime (t : Int)
  | other
deriving DecidableEq, Repr

/-- Classifies one blame output line the way both passes of
`getGitLineInfo` do: first the header regular expression, then the
`committer-time ` prefix whose second token is fed to `parseInt`
(extension.ts lines 113-123 and 139-152).  A `committer-time` line whose
token has no digits would store NaN in JS; the model treats it as inert. -/
def parseBlameLine (s : String) : BlameLine :=
  match parseHeader s with
  | some (h, fl) => BlameLine.header h fl
  | none =>
    if s.toList.take 15 = "committer-time ".toList then
      match jsParseInt ((s.toList.drop 15).takeWhile (fun c => c != ' ')) with
      | some t => BlameLine.committerTime t
      | none => BlameLine.other
    else BlameLine.other

/-- The initial value of `currentHash` in both passes. -/
def zeroHash : String := "0000000000000000000000000000000000000000"

/-- Models assignment on a JS object used as an ordered dictionary
(`hashCache[currentHash] = ...`): an existing key keeps its position and
gets the new value, a fresh key is appended. -/
def objSet : List (String × Int) → String → Int → List (String × Int)
  | [], k, v => [(k, v)]
  | (k0, v0) :: rest, k, v =>
    if k0 = k then (k, v) :: rest else (k0, v0) :: objSet rest k v

/-- Models property lookup on the same ordered dictionary. -/
def objGet : List (String × Int) → String → Option Int
  | [], _ => none
  | (k0, v0) :: rest, k => if k0 = k then some v0 else objGet rest k

/-- Models pass 1 of `getGitLineInfo` (extension.ts lines 113-123): scan
the blame lines keeping a current hash, and on every `committer-time`
line store the timestamp under the current hash. -/
def hashCacheOf (ls : List BlameLine) : List (String × Int) :=
  (ls.foldl
    (fun st l =>
      match l with
      | BlameLine.header h _ => (h, st.2)
      | BlameLine.committerTime t => (st.1, objSet st.2 st.1 t)
      | BlameLine.other => st)
    (zeroHash, ([] : List (String × Int)))).2

/-- Models `new Set(values)` (worker with the set of already-seen
elements): keep the first occurrence of every value, drop repeats. -/
def dedupKeepFirstAux (seen : List Int) : List Int → List Int
  | [] => []
  | x :: xs =>
    if x ∈ seen then dedupKeepFirstAux seen xs
    else x :: dedupKeepFirstAux (x :: seen) xs

/-- Models `new Set(values)`: deduplication keeping first occurrences. -/
def dedupKeepFirst (l : List Int) : List Int :=
  dedupKeepFirstAux [] l

/-- Models `Array.from(new Set(Object.values(hashCache))).sort((a,b)=>a-b)`
(extension.ts lines 127-129): the distinct timestamps in ascending
order. -/
def uniqueTimestamps (cache : List (String × Int)) : List Int :=
  List.insertionSort (· ≤ ·) (dedupKeepFirst (cache.map Prod.snd))

/-- Models the `timestampToRank` map (extension.ts lines 130-133): the
rank of a timestamp is its position in the sorted distinct list, counted
from 1; a timestamp not in the list has no rank. -/
def timestampToRank : List Int → Int → Option Nat
  | [], _ => none
  | u :: us, ts =>
    if u = ts then some 1 else (timestampToRank us ts).map (· + 1)

/-- Models pass 2 of `getGitLineInfo` (extension.ts lines 138-152): scan
the blame lines again and map each header line number to the timestamp of
its commit.  A final line number of 0 would write to JS index -1 and a
number beyond the document length extends the JS array; neither cell is
ever read by pass 3, so the model skips those writes. -/
def rawLineTimestamps (cache : List (String × Int)) (ls : List BlameLine)
    (lineCount : Nat) : List (Option Int) :=
  ls.foldl
    (fun raw l =>
      match l with
      | BlameLine.header h fl =>
        match objGet cache h with
        | some ts => if 1 ≤ fl then raw.set (fl - 1) (some ts) else raw
        | none => raw
      | _ => raw)
    (List.replicate lineCount none)

/-- Models the per-line result record of `getGitLineInfo`. -/
structure LineInfo where
  timestamp : Option Int
  ageScore : Nat
  displayNumber : Nat
deriving DecidableEq, Repr

/-- Models passes 1-3 of `getGitLineInfo` on classified blame lines
(extension.ts lines 104-173): build the hash cache, rank the distinct
timestamps, attribute lines, then give every line its rank as age score
and display number.  A line with no attributed timestamp gets rank
`(number of distinct timestamps) + 1`, or 1 when there are none; a ranked
lookup that failed would fall back to 1 (the `|| 1`).  The final filter
of the source is the identity here because pass 3 fills every slot. -/
def getGitLineInfoCore (ls : List BlameLine) (lineCount : Nat) : List LineInfo :=
  let cache := hashCacheOf ls
  let uts := uniqueTimestamps cache
  let raw := rawLineTimestamps cache ls lineCount
  (List.range lineCount).map (fun i =>
    match raw.getD i none with
    | none =>
      let s := if 0 < uts.length then uts.length + 1 else 1
      { timestamp := none, ageScore := s, displayNumber := s }
    | some ts =>
      let s := (timestampToRank uts ts).getD 1
      { timestamp := some ts, ageScore := s, displayNumber := s })

/-- Models `getGitLineInfo` given the text lines of the blame output
(the host splits the subprocess output on newlines, extension.ts line
104); a failing `git blame` invocation is modelled at the renderer as a
`none` input instead. -/
def getGitLineInfo (blameLines : List String) (lineCount : Nat) : List LineInfo :=
  getGitLineInfoCore (blameLines.map parseBlameLine) lineCount

/-! ### Absolute mode extractor: per-line modification counts -/

/-- Models `output.trim().split("\n").filter(Boolean).length`
(extension.ts line 203): the number of nonempty lines of the trimmed
per-line `git log` output. -/
def historyEntryCount (output : String) : Nat :=
  ((output.trim.splitOn "\n").filter (fun t => decide (t ≠ ""))).length

/-- Models `getGitModificationCounts` (extension.ts lines 188-212): one
entry per document line, where the input records the outcome of the
per-line `git log -L` invocation (`none` = the command threw).  A failed
line yields count 0 inside the catch; the function itself never fails. -/
def getGitModificationCounts (results : List (Option String)) : List Nat :=
  results.map (fun r =>
    match r with
    | none => 0
    | some output => historyEntryCount output)

/-! ### Renderers -/

/-- One `editor.setDecorations(style, options)` call, recorded as the
index of the decoration style and the document lines the options cover;
an empty line list is a clearing call. -/
structure DecorationCall where
  styleIdx : Nat
  lines : List Nat
deriving DecidableEq, Repr

/-- The initial clearing sweep `heatStyles.forEach(style =>
editor.setDecorations(style, []))` both renderers start with. -/
def clearCalls (numStyles : Nat) : List DecorationCall :=
  (List.range numStyles).map (fun i => { styleIdx := i, lines := [] })

/-- Models `updateHeatmapForRelativeMode` (extension.ts lines 236-335) as
the ordered list of setDecorations calls it issues for one editor, plus
whether the unsupported-VCS error message was shown.  Inputs: the current
`heatStyles` length, membership of the document in `enabledForFiles`, the
detected VCS, the `getGitLineInfo` result (`none` = blame failed) and the
document line count.  The age score is bucketed as `ageScore - 1` and a
bucket outside `0..9` is skipped by the guard on line 289; the final
apply loop runs over the hardcoded `numAgeLevels = 10` buckets. -/
def updateHeatmapForRelativeMode (numStyles : Nat) (enabled : Bool)
    (vcs : Option VcsType) (lineInfos : Option (List LineInfo))
    (lineCount : Nat) : List DecorationCall × Bool :=
  let clears := clearCalls numStyles
  if enabled = false then (clears, false)
  else if vcs = none then (clears, true)
  else
    match lineInfos with
    | none => (clears, false)
    | some infos =>
      if infos.length = 0 then (clears, false)
      else
        (clears ++ (List.range 10).map (fun bucket =>
          { styleIdx := bucket,
            lines := (List.range lineCount).filter (fun i =>
              match infos[i]? with
              | none => false
              | some info => decide ((info.ageScore : Int) - 1 = (bucket : Int))) }),
         false)

/-- Models the logarithmic bucket computation of
`updateHeatmapForAbsoluteMode` (extension.ts lines 400-404):
`Math.floor(((ln(c+1) - ln(min+1)) / (ln(max+1) - ln(min+1))) * (levelCount-1))`,
over the reals. -/
noncomputable def logBucket (c minTime maxTime levelCount : Nat) : Int :=
  Int.floor ((Real.log ((c : ℝ) + 1) - Real.log ((minTime : ℝ) + 1)) /
      (Real.log ((maxTime : ℝ) + 1) - Real.log ((minTime : ℝ) + 1)) *
    ((levelCount : ℝ) - 1))

/-- Models `updateHeatmapForAbsoluteMode` (extension.ts lines 342-426) as
the ordered list of setDecorations calls it issues, plus whether the
unsupported-VCS error message was shown.  Min and max are the
`reduce(Math.min / Math.max, counts[0])` folds; a degenerate count range
or log range returns after the clearing sweep.  Lines are pushed into the
bucket the log formula yields (a bucket outside the decoration array,
impossible while the palette is nonempty by `logBucket_mem_range`, would
throw in JS and paints nothing here), and the apply loop issues one call
per style. -/
noncomputable def updateHeatmapForAbsoluteMode (numStyles : Nat) (enabled : Bool)
    (vcs : Option VcsType) (lineCounts : Option (List Nat))
    (lineCount : Nat) : List DecorationCall × Bool :=
  let clears := clearCalls numStyles
  if enabled = false then (clears, false)
  else if vcs = none then (clears, true)
  else
    match lineCounts with
    | none => (clears, false)
    | some counts =>
      if counts.length = 0 then (clears, false)
      else
        let minTime := counts.foldl min (counts.headD 0)
        let maxTime := counts.foldl max (counts.headD 0)
        if maxTime - minTime = 0 then (clears, false)
        else if Real.log ((maxTime : ℝ) + 1) - Real.log ((minTime : ℝ) + 1) = 0 then
          (clears, false)
        else
          (clears ++ (List.range numStyles).map (fun bucket =>
            { styleIdx := bucket,
              lines := (List.range lineCount).filter (fun i =>
                match counts[i]? with
                | none => false
                | some c => decide (logBucket c minTime maxTime numStyles = (bucket : Int))) }),
           false)

/-! ### Mode dispatch -/

/-- The two per-editor update routines `updateVisibleHeatmaps` can
invoke. -/
inductive HeatmapUpdater where
  | relativeMode
  | absoluteMode
deriving DecidableEq, Repr

/-- Models the dispatch of `updateVisibleHeatmaps` (extension.ts lines
218-229): the configured mode string selects the relative-mode update on
exactly `"relative"` and the absolute-mode update on exactly
`"absolute"`; any other mode value invokes nothing. -/
def updateVisibleHeatmapsDispatch (mode : String) : Option HeatmapUpdater :=
  if mode = "relative" then some HeatmapUpdater.relativeMode
  else if mode = "absolute" then some HeatmapUpdater.absoluteMode
  else none

/-- The allowed values of the `heatmap.mode` setting as declared in
package.json (lines 85-90). -/
def heatmapModeEnumValues : List String := ["line_commit", "age"]

/-- The default value of the `heatmap.mode` setting declared in
package.json. -/
def heatmapModeDefaultValue : String := "age"

/-! ### Concrete instances used by witnesses and counterexamples -/

/-- Filesystem with a `.git` marker five levels above a file and a
`.p4config` marker in an intermediate directory on the walk. -/
def fsWithMidP4 : VcsFileSystem :=
  { hasGitMarker := fun d => d = ["repo"]
    hasP4Marker := fun d => d = ["repo", "a"]
    p4configEnvSet := false }

/-- Filesystem with a `.git` marker five levels above a file and nothing
else on the walk. -/
def fsGitFiveUp : VcsFileSystem :=
  { hasGitMarker := fun d => d = ["r"]
    hasP4Marker := fun _ => false
    p4configEnvSet := false }

/-- Filesystem whose only `.git` marker lies directly in the filesystem
root, with the Perforce environment variable set. -/
def fsRootGitOnly : VcsFileSystem :=
  { hasGitMarker := fun d => d.isEmpty
    hasP4Marker := fun _ => false
    p4configEnvSet := true }

/-- Blame output of an 11-line file whose lines were last touched by 11
different commits at 11 distinct ascending timestamps. -/
def blameElevenCommits : List String :=
  ["0000000000000000000000000000000000000001 1 1 1", "committer-time 100",
   "0000000000000000000000000000000000000002 2 2 1", "committer-time 200",
   "0000000000000000000000000000000000000003 3 3 1", "committer-time 300",
   "0000000000000000000000000000000000000004 4 4 1", "committer-time 400",
   "0000000000000000000000000000000000000005 5 5 1", "committer-time 500",
   "0000000000000000000000000000000000000006 6 6 1", "committer-time 600",
   "0000000000000000000000000000000000000007 7 7 1", "committer-time 700",
   "0000000000000000000000000000000000000008 8 8 1", "committer-time 800",
   "0000000000000000000000000000000000000009 9 9 1", "committer-time 900",
   "000000000000000000000000000000000000000a 10 10 1", "committer-time 1000",
   "000000000000000000000000000000000000000b 11 11 1", "committer-time 1100"]

/-! ### Helper lemmas -/

/-- Mixing with weight 0 returns the receiver unchanged: both branches of
the division guard collapse to a weight of 0 on the mixin color. -/
theorem mixColor_zero (self mixin : Rgba) : mixColor self mixin 0 = self := by
  simp only [mixColor]
  by_cases h : (2 * (0:ℚ) - 1) * (mixin.alpha - self.alpha) = -1
  · rw [if_pos h]
    ext <;> ring
  · rw [if_neg h]
    have hne : 1 + (2 * (0:ℚ) - 1) * (mixin.alpha - self.alpha) ≠ 0 := by
      intro h0
      apply h
      linarith
    have hq : (2 * (0:ℚ) - 1 + (mixin.alpha - self.alpha)) /
        (1 + (2 * (0:ℚ) - 1) * (mixin.alpha - self.alpha)) = -1 := by
      rw [div_eq_iff hne]
      ring
    rw [hq]
    ext <;> ring

/-- Mixing with weight 1 returns the mixin color. -/
theorem mixColor_one (self mixin : Rgba) : mixColor self mixin 1 = mixin := by
  simp only [mixColor]
  by_cases h : (2 * (1:ℚ) - 1) * (mixin.alpha - self.alpha) = -1
  · rw [if_pos h]
    ext <;> simp
  · rw [if_neg h]
    have hne : 1 + (2 * (1:ℚ) - 1) * (mixin.alpha - self.alpha) ≠ 0 := by
      intro h0
      apply h
      linarith
    have hq : (2 * (1:ℚ) - 1 + (mixin.alpha - self.alpha)) /
        (1 + (2 * (1:ℚ) - 1) * (mixin.alpha - self.alpha)) = 1 := by
      rw [div_eq_iff hne]
      ring
    rw [hq]
    ext <;> simp

/-- A one-level palette holds the single color `cool.mix(hot, 0)`, which
is the cool color. -/
theorem buildPalette_one (hot cool : Rgba) : buildPalette 1 hot cool = [cool] := by
  simp [buildPalette, mixColor_zero]

/-- The clearing sweep issues one call per decoration style. -/
theorem clearCalls_length (ns : Nat) : (clearCalls ns).length = ns := by
  simp [clearCalls]

/-- The first `ns` calls of a clears-then-paints sequence are the
clearing sweep. -/
theorem take_clearCalls_append (ns : Nat) (rest : List DecorationCall) :
    (clearCalls ns ++ rest).take ns = clearCalls ns := by
  have h := List.take_left (clearCalls ns) rest
  rwa [clearCalls_length] at h

/-- Taking `ns` calls of the bare clearing sweep returns it whole. -/
theorem take_clearCalls_self (ns : Nat) :
    (clearCalls ns).take ns = clearCalls ns := by
  have h := List.take_length (clearCalls ns)
  rwa [clearCalls_length] at h

/-- Folding min over an all-zero signal stays at zero. -/
theorem foldl_min_replicate_zero : ∀ n : Nat, (List.replicate n (0 : Nat)).foldl min 0 = 0 := by
  intro n
  induction n with
  | zero => rfl
  | succ k ih => simpa [List.replicate_succ] using ih

/-- Folding max over an all-zero signal stays at zero. -/
theorem foldl_max_replicate_zero : ∀ n : Nat, (List.replicate n (0 : Nat)).foldl max 0 = 0 := by
  intro n
  induction n with
  | zero => rfl
  | succ k ih => simpa [List.replicate_succ] using ih

/-- The head default of an all-zero signal is zero. -/
theorem headD_replicate_zero (n : Nat) : (List.replicate n (0 : Nat)).headD 0 = 0 := by
  cases n <;> simp [List.replicate_succ]

/-- The walk started on a directory with a `.git` marker extended by
suffix directories carrying no `.p4config` marker reports git, whatever
else the intermediate directories contain. -/
theorem detectVcsWalk_append_git (fs : VcsFileSystem) (g : List String)
    (hg : g ≠ []) (hgit : fs.hasGitMarker g = true) :
    ∀ suf : List String,
      (∀ k, 1 ≤ k → k ≤ suf.length → fs.hasP4Marker (g ++ suf.take k) = false) →
      detectVcsWalk fs (g ++ suf) = some VcsType.git := by
  intro suf
  induction suf using List.reverseRecOn with
  | nil =>
    intro _
    obtain ⟨d, ds, hds⟩ := List.exists_cons_of_ne_nil hg
    rw [List.append_nil, hds]
    simp only [detectVcsWalk]
    rw [← hds, hgit]
    simp
  | append_singleton l a ih =>
    intro hp4
    have hne : g ++ (l ++ [a]) ≠ [] := by simp
    obtain ⟨d, ds, hds⟩ := List.exists_cons_of_ne_nil hne
    rw [hds]
    simp only [detectVcsWalk]
    rw [← hds]
    by_cases hG : fs.hasGitMarker (g ++ (l ++ [a])) = true
    · rw [if_pos hG]
    · rw [if_neg hG]
      have hP : fs.hasP4Marker (g ++ (l ++ [a])) = false := by
        have hfull := hp4 (l.length + 1) (by omega) (by simp)
        rwa [show l.length + 1 = (l ++ [a]).length by simp, List.take_length] at hfull
      rw [if_neg (by rw [hP]; exact Bool.false_ne_true)]
      rw [← List.append_assoc, List.dropLast_concat]
      apply ih
      intro k hk1 hk2
      have hres := hp4 k hk1 (by simp; omega)
      rwa [List.take_append_of_le_length hk2] at hres

/-- When no nonempty directory carries a marker, the walk falls through
to the environment check, whatever the root itself contains. -/
theorem detectVcsWalk_no_markers (fs : VcsFileSystem)
    (hno : ∀ d : List String, d ≠ [] → fs.hasGitMarker d = false ∧ fs.hasP4Marker d = false) :
    ∀ l : List String,
      detectVcsWalk fs l = (if fs.p4configEnvSet then some VcsType.perforce else none) := by
  intro l
  induction l using List.reverseRecOn with
  | nil => simp only [detectVcsWalk]
  | append_singleton l a ih =>
    have hne : l ++ [a] ≠ [] := by simp
    obtain ⟨d, ds, hds⟩ := List.exists_cons_of_ne_nil hne
    rw [hds]
    simp only [detectVcsWalk]
    rw [← hds]
    obtain ⟨h1, h2⟩ := hno (l ++ [a]) hne
    rw [if_neg (by rw [h1]; exact Bool.false_ne_true),
      if_neg (by rw [h2]; exact Bool.false_ne_true)]
    rw [List.dropLast_concat]
    exact ih

/-! ### Claim theorems -/

/-- C1: the claim says configured mode `age` runs the age-rank extractor
and configured mode `line_commit` runs the modification-count extractor.
The dispatch of `updateVisibleHeatmaps` tests the mode string against
`"relative"` and `"absolute"` only, so neither value declared in
package.json (including the declared default `age`) invokes any update
routine, while the undeclared strings `"relative"` and `"absolute"` do. -/
theorem C1_declared_modes_run_no_updater :
    (heatmapModeEnumValues.all fun m => (updateVisibleHeatmapsDispatch m).isNone) = true
  ∧ updateVisibleHeatmapsDispatch heatmapModeDefaultValue = none
  ∧ updateVisibleHeatmapsDispatch "relative" = some HeatmapUpdater.relativeMode
  ∧ updateVisibleHeatmapsDispatch "absolute" = some HeatmapUpdater.absoluteMode :=
  ⟨by decide, by decide, by decide, by decide⟩

/-- C2 counterexample: with the default colors (opaque heat, transparent
cool), a one-level palette is the single cool color, not the hot color as
the claim states. -/
theorem C2_single_level_cex :
    buildPalette 1 defaultHeatColour (coolDefaultOf defaultHeatColour) ≠ [defaultHeatColour]
  ∧ buildPalette 1 defaultHeatColour (coolDefaultOf defaultHeatColour) =
      [coolDefaultOf defaultHeatColour] := by
  refine ⟨?_, buildPalette_one _ _⟩
  rw [buildPalette_one]
  intro h
  injection h with h1 _
  norm_num [coolDefaultOf, defaultHeatColour] at h1

/-- C2 amended: a one-level palette is the single cool color (mix at
fraction 0); for n greater than 1 the palette has exactly n entries mixed
at fractions 0, 1/(n-1), ..., 1, entry 0 being the cool color and entry
n-1 the hot color. -/
theorem C2_palette_endpoints (hot cool : Rgba) (n : Nat) :
    buildPalette 1 hot cool = [cool]
  ∧ (buildPalette (n + 2) hot cool).length = n + 2
  ∧ (buildPalette (n + 2) hot cool)[0]? = some cool
  ∧ (buildPalette (n + 2) hot cool)[n + 1]? = some hot := by
  have h1 : (1 : Nat) < n + 2 := by omega
  refine ⟨buildPalette_one hot cool, ?_, ?_, ?_⟩
  · simp only [buildPalette, List.length_map, List.length_range]
  · simp only [buildPalette]
    rw [if_pos h1, List.getElem?_map, List.getElem?_range (by omega : 0 < n + 2)]
    dsimp only [Option.map]
    rw [Nat.cast_zero, mul_zero, mixColor_zero]
  · simp only [buildPalette]
    rw [if_pos h1, List.getElem?_map, List.getElem?_range (by omega : n + 1 < n + 2)]
    have hq : (1 / (((n + 2 : Nat) : ℚ) - 1)) * ((n + 1 : Nat) : ℚ) = 1 := by
      have hcast : ((n + 2 : Nat) : ℚ) - 1 = ((n + 1 : Nat) : ℚ) := by
        push_cast
        ring
      have hne : ((n + 1 : Nat) : ℚ) ≠ 0 := by positivity
      rw [hcast]
      field_simp
    dsimp only [Option.map]
    rw [hq, mixColor_one]

/-- C3 counterexample: on a file whose blame history has 11 distinct
change timestamps, line ranks run up to 11, yet every setDecorations call
of the relative-mode render targets a style index below 10 and the line
ranked 11 (index 10) is painted by no call: the render skips it instead
of indexing the 10-entry palette out of range. -/
theorem C3_rank_overflow_cex :
    (getGitLineInfo blameElevenCommits 11).map LineInfo.ageScore =
      [1, 2, 3, 4, 5, 6, 7, 8, 9, 10, 11]
  ∧ ((updateHeatmapForRelativeMode 10 true (some VcsType.git)
        (some (getGitLineInfo blameElevenCommits 11)) 11).1.all
      (fun call => decide (call.styleIdx < 10))) = true
  ∧ ((updateHeatmapForRelativeMode 10 true (some VcsType.git)
        (some (getGitLineInfo blameElevenCommits 11)) 11).1.all
      (fun call => decide ((10 : Nat) ∉ call.lines))) = true :=
  ⟨by decide, by decide, by decide⟩

/-- C3 amended: with the 10-entry palette, every setDecorations call of
the relative-mode render stays within style indices 0..9 and paints only
lines whose age rank is at most 10; lines ranked above 10 are skipped by
the bucket guard, never indexed out of range. -/
theorem C3_overflow_ranks_skipped (infos : List LineInfo) (lc : Nat) :
    ((updateHeatmapForRelativeMode 10 true (some VcsType.git) (some infos) lc).1.all
      (fun call => decide (call.styleIdx < 10) &&
        call.lines.all (fun i =>
          match infos[i]? with
          | some info => decide (info.ageScore ≤ 10)
          | none => true))) = true := by
  simp only [updateHeatmapForRelativeMode]
  rw [if_neg (by simp : ¬(true = false))]
  rw [if_neg (by simp : ¬(some VcsType.git = (none : Option VcsType)))]
  by_cases h0 : infos.length = 0
  · rw [if_pos h0]
    rw [List.all_eq_true]
    intro call hcall
    simp only [clearCalls, List.mem_map, List.mem_range] at hcall
    obtain ⟨i, hi, rfl⟩ := hcall
    simp [hi]
  · rw [if_neg h0]
    rw [List.all_eq_true]
    intro call hcall
    rw [List.mem_append] at hcall
    rcases hcall with hc | hc
    · simp only [clearCalls, List.mem_map, List.mem_range] at hc
      obtain ⟨i, hi, rfl⟩ := hc
      simp [hi]
    · simp only [List.mem_map, List.mem_range] at hc
      obtain ⟨b, hb, rfl⟩ := hc
      simp only [Bool.and_eq_true, decide_eq_true_eq]
      refine ⟨hb, ?_⟩
      rw [List.all_eq_true]
      intro i hi
      rw [List.mem_filter] at hi
      obtain ⟨-, hfi⟩ := hi
      cases hinfo : infos[i]? with
      | none => simp [hinfo] at hfi
      | some info =>
        rw [hinfo] at hfi
        have hvb : (info.ageScore : Int) - 1 = (b : Int) := by
          have := of_decide_eq_true hfi
          exact this
        have hle : info.ageScore ≤ 10 := by omega
        simp only [hinfo]
        simp [hle]

/-- C4 counterexample: a configured heat-level count of 0 is less than 1,
yet `buildDecorations` reports no configuration error, builds a fresh
10-entry palette, and wipes the previously applied decorations, because
the JS or-default turns the falsy 0 into the default 10 before the guard
runs. -/
theorem C4_zero_heatLevels_cex :
    ((0 : Int) < 1)
  ∧ (buildDecorations 0 defaultHeatColour (coolDefaultOf defaultHeatColour)
      { heatStyles := [defaultHeatColour], editorPaint := [3] }).2 = false
  ∧ (buildDecorations 0 defaultHeatColour (coolDefaultOf defaultHeatColour)
      { heatStyles := [defaultHeatColour], editorPaint := [3] }).1.heatStyles.length = 10
  ∧ (buildDecorations 0 defaultHeatColour (coolDefaultOf defaultHeatColour)
      { heatStyles := [defaultHeatColour], editorPaint := [3] }).1.editorPaint = [] := by
  refine ⟨by norm_num, ?_, ?_, ?_⟩ <;>
    simp [buildDecorations, effectiveHeatLevels, buildPalette]

/-- C4 amended: whenever the effective heat-level count (the configured
value with the falsy 0 replaced by the default 10) is below 1, the error
message is shown and `buildDecorations` returns before building a palette
or touching the prior state, which is preserved unchanged. -/
theorem C4_invalid_heatLevels_aborts (configured : Int) (hot cool : Rgba)
    (st : BuildState) (h : effectiveHeatLevels configured < 1) :
    buildDecorations configured hot cool st = (st, true) := by
  simp only [buildDecorations]
  rw [if_pos h]

/-- Witness for C4: a configured heat-level count of -1 aborts and keeps
the prior palette and paint. -/
theorem C4_invalid_heatLevels_aborts_witness :
    buildDecorations (-1) defaultHeatColour (coolDefaultOf defaultHeatColour)
      { heatStyles := [defaultHeatColour], editorPaint := [3] } =
    ({ heatStyles := [defaultHeatColour], editorPaint := [3] }, true) :=
  C4_invalid_heatLevels_aborts (-1) defaultHeatColour (coolDefaultOf defaultHeatColour)
    { heatStyles := [defaultHeatColour], editorPaint := [3] } (by decide)

/-- C5 counterexample: a file five levels below a directory with a `.git`
marker is classified perforce, not git, when an intermediate directory on
the walk carries a `.p4config` marker — the claim conclusion does not
hold regardless of intermediate directory contents. -/
theorem C5_intermediate_p4_cex :
    fsWithMidP4.hasGitMarker ["repo"] = true
  ∧ detectVcsType fsWithMidP4 (["repo"] ++ ["a", "b", "c", "d", "f.txt"]) = some VcsType.perforce
  ∧ detectVcsType fsWithMidP4 (["repo"] ++ ["a", "b", "c", "d", "f.txt"]) ≠ some VcsType.git := by
  refine ⟨by decide, ?_, ?_⟩
  · simp [detectVcsType, detectVcsWalk, fsWithMidP4]
  · simp [detectVcsType, detectVcsWalk, fsWithMidP4]

/-- C5 amended: for a file five path components below a non-root
directory carrying a `.git` marker, detection walks up from the
containing directory and returns git, provided no intermediate directory
on the walk carries a `.p4config` marker (whether intermediates carry
`.git` markers is irrelevant). -/
theorem C5_git_marker_five_levels_up (fs : VcsFileSystem) (g rest : List String)
    (hg : g ≠ []) (hlen : rest.length = 5) (hgit : fs.hasGitMarker g = true)
    (hp4 : ∀ k, 1 ≤ k → k ≤ 4 → fs.hasP4Marker (g ++ rest.dropLast.take k) = false) :
    detectVcsType fs (g ++ rest) = some VcsType.git := by
  have hrne : rest ≠ [] := by
    intro h
    rw [h] at hlen
    simp at hlen
  unfold detectVcsType
  rw [show g ++ rest = (g ++ rest.dropLast) ++ [rest.getLast hrne] from by
    rw [List.append_assoc, List.dropLast_append_getLast hrne]]
  rw [List.dropLast_concat]
  apply detectVcsWalk_append_git fs g hg hgit rest.dropLast
  intro k hk1 hk2
  have hdl : rest.dropLast.length = 4 := by
    rw [List.length_dropLast, hlen]
  exact hp4 k hk1 (by omega)

/-- Witness for C5: a concrete filesystem with the `.git` marker five
levels above the file and empty intermediates yields git. -/
theorem C5_git_marker_five_levels_up_witness :
    detectVcsType fsGitFiveUp (["r"] ++ ["a", "b", "c", "d", "f.txt"]) = some VcsType.git := by
  apply C5_git_marker_five_levels_up fsGitFiveUp ["r"] ["a", "b", "c", "d", "f.txt"]
    (by decide) (by decide) (by decide)
  intro k _ _
  rfl

/-- C6: for a non-degenerate signal range (min strictly below max), any
signal between min and max, and at least one heat level, the logarithmic
bucket index lies within 0 and levelCount - 1, so the per-bucket
decoration array of absolute mode is never indexed out of bounds. -/
theorem C6_log_bucket_in_range (c m M L : Nat) (hmM : m < M) (hmc : m ≤ c)
    (hcM : c ≤ M) (hL : 1 ≤ L) :
    0 ≤ logBucket c m M L ∧ logBucket c m M L ≤ (L : Int) - 1 := by
  unfold logBucket
  have hm1 : (0 : ℝ) < (m : ℝ) + 1 := by positivity
  have hc1 : (0 : ℝ) < (c : ℝ) + 1 := by positivity
  have hAB : Real.log ((m : ℝ) + 1) < Real.log ((M : ℝ) + 1) := by
    apply Real.log_lt_log hm1
    have : (m : ℝ) < (M : ℝ) := by exact_mod_cast hmM
    linarith
  have hAX : Real.log ((m : ℝ) + 1) ≤ Real.log ((c : ℝ) + 1) := by
    apply Real.log_le_log hm1
    have : (m : ℝ) ≤ (c : ℝ) := by exact_mod_cast hmc
    linarith
  have hXB : Real.log ((c : ℝ) + 1) ≤ Real.log ((M : ℝ) + 1) := by
    apply Real.log_le_log hc1
    have : (c : ℝ) ≤ (M : ℝ) := by exact_mod_cast hcM
    linarith
  set A := Real.log ((m : ℝ) + 1)
  set B := Real.log ((M : ℝ) + 1)
  set X := Real.log ((c : ℝ) + 1)
  have hBA : 0 < B - A := by linarith
  have hr0 : 0 ≤ (X - A) / (B - A) := by
    apply div_nonneg (by linarith) (le_of_lt hBA)
  have hr1 : (X - A) / (B - A) ≤ 1 := by
    rw [div_le_one hBA]
    linarith
  have hL1 : (0 : ℝ) ≤ (L : ℝ) - 1 := by
    have : (1 : ℝ) ≤ (L : ℝ) := by exact_mod_cast hL
    linarith
  constructor
  · rw [Int.le_floor]
    push_cast
    exact mul_nonneg hr0 hL1
  · have hy : (X - A) / (B - A) * ((L : ℝ) - 1) ≤ (L : ℝ) - 1 :=
      mul_le_of_le_one_left hL1 hr1
    have hcast : ((L : ℝ) - 1) = (((L : Int) - 1 : Int) : ℝ) := by
      push_cast
      ring
    calc Int.floor ((X - A) / (B - A) * ((L : ℝ) - 1))
        ≤ Int.floor ((((L : Int) - 1 : Int) : ℝ)) := by
          apply Int.floor_le_floor
          rw [← hcast]
          exact hy
      _ = (L : Int) - 1 := Int.floor_intCast _

/-- Witness for C6 at signal 0 on range 0..1 with a single level. -/
theorem C6_log_bucket_in_range_witness :
    0 ≤ logBucket 0 0 1 1 ∧ logBucket 0 0 1 1 ≤ (1 : Int) - 1 :=
  C6_log_bucket_in_range 0 0 1 1 (by decide) (by decide) (by decide) (by decide)

/-- C7: on blame output attributing line 1 to a commit at the earlier
time t1 and line 2 to a different commit at the later time t2, the
age-rank extraction yields ranks [1, 2], the older line ranked 1; when
the two commits share one timestamp, both lines share rank 1. -/
theorem C7_two_commit_ranks (h1 h2 : String) (t1 t2 : Int) (hne : h1 ≠ h2) (hlt : t1 < t2) :
    (getGitLineInfoCore [BlameLine.header h1 1, BlameLine.committerTime t1,
        BlameLine.header h2 2, BlameLine.committerTime t2] 2).map LineInfo.ageScore = [1, 2]
  ∧ (getGitLineInfoCore [BlameLine.header h1 1, BlameLine.committerTime t1,
        BlameLine.header h2 2, BlameLine.committerTime t1] 2).map LineInfo.ageScore = [1, 1] := by
  have hne2 : h2 ≠ h1 := Ne.symm hne
  have ht : t1 ≠ t2 := ne_of_lt hlt
  have ht2 : t2 ≠ t1 := Ne.symm ht
  constructor <;>
    simp [getGitLineInfoCore, hashCacheOf, objSet, objGet, rawLineTimestamps,
      uniqueTimestamps, dedupKeepFirst, dedupKeepFirstAux, timestampToRank,
      hne, hne2, ht, ht2, hlt.le, List.insertionSort, List.orderedInsert, zeroHash,
      List.range_succ, List.range_zero]

/-- Witness for C7 at two concrete commit hashes and times 100 and 200. -/
theorem C7_two_commit_ranks_witness :
    (getGitLineInfoCore
      [BlameLine.header "aaaaaaaaaaaaaaaaaaaaaaaaaaaaaaaaaaaaaaaa" 1,
       BlameLine.committerTime 100,
       BlameLine.header "bbbbbbbbbbbbbbbbbbbbbbbbbbbbbbbbbbbbbbbb" 2,
       BlameLine.committerTime 200] 2).map LineInfo.ageScore = [1, 2]
  ∧ (getGitLineInfoCore
      [BlameLine.header "aaaaaaaaaaaaaaaaaaaaaaaaaaaaaaaaaaaaaaaa" 1,
       BlameLine.committerTime 100,
       BlameLine.header "bbbbbbbbbbbbbbbbbbbbbbbbbbbbbbbbbbbbbbbb" 2,
       BlameLine.committerTime 100] 2).map LineInfo.ageScore = [1, 1] :=
  C7_two_commit_ranks "aaaaaaaaaaaaaaaaaaaaaaaaaaaaaaaaaaaaaaaa"
    "bbbbbbbbbbbbbbbbbbbbbbbbbbbbbbbbbbbbbbbb" 100 200 (by decide) (by decide)

/-- C8: a per-line history-command failure yields count 0 for exactly
that line without disturbing the others and without failing the
extraction; when every line fails (a file with no VCS history) the signal
is all zeros, its max equals its min, and the absolute-mode render stops
at the degenerate-range check, issuing only the clearing sweep and no
error. -/
theorem C8_per_line_failure_and_degenerate (pre post : List (Option String))
    (n lc ns : Nat) :
    getGitModificationCounts (pre ++ none :: post) =
      getGitModificationCounts pre ++ 0 :: getGitModificationCounts post
  ∧ getGitModificationCounts (List.replicate n none) = List.replicate n 0
  ∧ (let counts := getGitModificationCounts (List.replicate n none)
     counts.foldl max (counts.headD 0) = counts.foldl min (counts.headD 0))
  ∧ updateHeatmapForAbsoluteMode ns true (some VcsType.git)
      (some (getGitModificationCounts (List.replicate n none))) lc = (clearCalls ns, false) := by
  have hrep : getGitModificationCounts (List.replicate n none) = List.replicate n 0 := by
    simp [getGitModificationCounts]
  refine ⟨?_, hrep, ?_, ?_⟩
  · simp [getGitModificationCounts]
  · simp only [hrep]
    rw [headD_replicate_zero, foldl_min_replicate_zero, foldl_max_replicate_zero]
  · rw [hrep]
    cases n with
    | zero => simp [updateHeatmapForAbsoluteMode]
    | succ k =>
      simp only [updateHeatmapForAbsoluteMode]
      rw [if_neg (by simp : ¬ (true = false))]
      rw [if_neg (by simp : ¬ (some VcsType.git = (none : Option VcsType)))]
      rw [if_neg (by simp : ¬ (List.replicate (k + 1) (0 : Nat)).length = 0)]
      rw [headD_replicate_zero, foldl_min_replicate_zero, foldl_max_replicate_zero]
      rw [if_pos rfl]

/-- C9: in both modes the render first issues the full clearing sweep
(one empty setDecorations call per decoration style) before any paint,
and for a document outside the enabled set it issues exactly the clearing
sweep and stops without painting. -/
theorem C9_clear_before_paint (ns lc : Nat) (e : Bool) (v : Option VcsType)
    (infos : Option (List LineInfo)) (counts : Option (List Nat)) :
    (updateHeatmapForRelativeMode ns e v infos lc).1.take ns = clearCalls ns
  ∧ (updateHeatmapForAbsoluteMode ns e v counts lc).1.take ns = clearCalls ns
  ∧ (updateHeatmapForRelativeMode ns false v infos lc).1 = clearCalls ns
  ∧ (updateHeatmapForAbsoluteMode ns false v counts lc).1 = clearCalls ns := by
  refine ⟨?_, ?_, ?_, ?_⟩
  · simp only [updateHeatmapForRelativeMode]
    repeat' split
    all_goals
      first
        | exact take_clearCalls_self ns
        | exact take_clearCalls_append ns _
  · simp only [updateHeatmapForAbsoluteMode]
    repeat' split
    all_goals
      first
        | exact take_clearCalls_self ns
        | exact take_clearCalls_append ns _
  · simp [updateHeatmapForRelativeMode]
  · simp [updateHeatmapForAbsoluteMode]

/-- C10: the walk never probes the filesystem root: when no directory
other than the root carries a marker, detection ignores any marker in the
root and returns perforce exactly when the Perforce environment variable
is set, otherwise nothing. -/
theorem C10_root_never_probed (fs : VcsFileSystem) (filePath : List String)
    (hno : ∀ d : List String, d ≠ [] → fs.hasGitMarker d = false ∧ fs.hasP4Marker d = false) :
    detectVcsType fs filePath =
      (if fs.p4configEnvSet then some VcsType.perforce else none) := by
  unfold detectVcsType
  exact detectVcsWalk_no_markers fs hno filePath.dropLast

/-- Witness for C10: a `.git` marker directly in the root is not found
and the set environment variable makes detection return perforce. -/
theorem C10_root_never_probed_witness :
    detectVcsType fsRootGitOnly ["home", "user", "f.txt"] = some VcsType.perforce
  ∧ fsRootGitOnly.hasGitMarker [] = true := by
  constructor
  · have h := C10_root_never_probed fsRootGitOnly ["home", "user", "f.txt"]
      (by
        intro d hd
        cases d with
        | nil => exact absurd rfl hd
        | cons x xs => exact ⟨rfl, rfl⟩)
    simpa [fsRootGitOnly] using h
  · rfl
